import Mathlib

/-!
Verification development for the chatmate signaling server (src/server.js).

The server keeps three insertion-ordered maps:
  users     : socketId -> user record        (JS: const users = new Map())
  rooms     : roomId   -> Set of socketIds   (JS: const rooms = new Map())
  userRooms : userId   -> Set of roomIds     (JS: const userRooms = new Map())
plus the socket.io room membership maintained by socket.join / socket.leave
(modelled here as a fourth map, ioRooms), which socket.to(room) consults when
broadcasting to a room excluding the sender.

JS Maps preserve insertion order, setting an existing key updates in place,
and Sets likewise append on add; we model both as association lists over
String keys.  Timestamps (new Date()) are Nats supplied by the caller, and
uuidv4() results are fresh-string parameters.  Every handler is translated
directly from the corresponding socket.on(...) block; the try/catch wrappers
never fire in this pure model, so the catch branches are omitted.
-/

set_option autoImplicit false

namespace Chatmate

/-- A JS Map with String keys, as an insertion-ordered association list. -/
abbrev SMap (α : Type) : Type := List (String × α)

/-- Map.get: first entry with the key (keys are unique in a real JS Map). -/
def mapGet {α : Type} : SMap α → String → Option α
  | [], _ => none
  | (k, v) :: rest, key => if k = key then some v else mapGet rest key

/-- Map.set: update in place if the key is present, else append. -/
def mapSet {α : Type} : SMap α → String → α → SMap α
  | [], key, val => [(key, val)]
  | (k, v) :: rest, key, val =>
    if k = key then (key, val) :: rest else (k, v) :: mapSet rest key val

/-- Map.delete. -/
def mapDelete {α : Type} (m : SMap α) (key : String) : SMap α :=
  m.filter (fun p => p.1 != key)

/-- Set.add on an insertion-ordered set of strings. -/
def setAdd (l : List String) (x : String) : List String :=
  if x ∈ l then l else l ++ [x]

/-- Set.delete. -/
def setDelete (l : List String) (x : String) : List String :=
  l.filter (fun y => y != x)

/-- `if (!m.has(k)) m.set(k, new Set()); m.get(k).add(x)` -/
def ensureAdd (m : SMap (List String)) (k x : String) : SMap (List String) :=
  match mapGet m k with
  | none => mapSet m k (setAdd [] x)
  | some l => mapSet m k (setAdd l x)

/-- `if (m.has(k)) { m.get(k).delete(x); if (m.get(k).size === 0) m.delete(k) }` -/
def removeAndPrune (m : SMap (List String)) (k x : String) : SMap (List String) :=
  match mapGet m k with
  | none => m
  | some l =>
    let l' := setDelete l x
    if l'.isEmpty then mapDelete m k else mapSet m k l'

/-- `if (m.has(k)) m.get(k).delete(x)` (no pruning). -/
def delFrom (m : SMap (List String)) (k x : String) : SMap (List String) :=
  match mapGet m k with
  | none => m
  | some l => mapSet m k (setDelete l x)

/-- JS `a || b` on an optional string: absent and the empty string are falsy. -/
def jsOr (v : Option String) (d : String) : String :=
  match v with
  | none => d
  | some s => if s = "" then d else s

/-- The user record built by the register-user handler (src/server.js:59-65). -/
structure User where
  id : String
  name : String
  socketId : String
  lastSeen : Nat
  isOnline : Bool
deriving Repr, DecidableEq

/-- An element of the user list sent by broadcastUserList and GET /users. -/
structure UserSummary where
  id : String
  name : String
  isOnline : Bool
  lastSeen : Nat
deriving Repr, DecidableEq

/-- Payload of a `signal` event: a `to` field (here `toId`) plus an opaque
body. -/
structure SignalData where
  toId : String
  type : String
  body : String
deriving Repr, DecidableEq

/-- Payload of a `chat-message` event. -/
structure ChatData where
  recipientId : String
  content : String
  msgType : Option String
deriving Repr, DecidableEq

/-- The chat envelope built at src/server.js:227-236. -/
structure ChatMsg where
  id : String
  senderId : String
  senderName : String
  recipientId : String
  content : String
  timestamp : Nat
  msgType : String
  deliveryStatus : String
deriving Repr, DecidableEq

/-- Payload of a `typing` event. -/
structure TypingData where
  recipientId : String
  isTyping : Bool
deriving Repr, DecidableEq

/-- One outbound transport send issued by a handler. -/
inductive Emit where
  | userRegistered (target userId name personalRoom : String)
  | broadcastUserList (list : List UserSummary)
  | userJoinedRoom (target : String) (userId userName : Option String) (roomId : String)
  | userLeftRoom (target : String) (userId userName : Option String) (roomId : String)
  | signal (target : String) (data : SignalData) (fromId fromName : String) (timestamp : Nat)
  | signalError (target errMsg targetUserId : String) (original : SignalData)
  | chatMessage (target : String) (msg : ChatMsg)
  | messageDelivered (target messageId deliveredTo : String) (timestamp : Nat)
  | messageOffline (target messageId recipientId : String) (timestamp : Nat)
  | typing (target userId userName : String) (isTyping : Bool) (timestamp : Nat)
deriving Repr, DecidableEq

/-- Acknowledgment sent through the join-room / leave-room callback. -/
inductive Ack where
  | success (roomId : Option String)
  | failure (errMsg : String)
deriving Repr, DecidableEq

/-- The server's mutable state: the three JS maps plus socket.io's own
room-membership bookkeeping (consulted by socket.to). -/
structure ServerState where
  users : SMap User
  rooms : SMap (List String)
  userRooms : SMap (List String)
  ioRooms : SMap (List String)
deriving Repr, DecidableEq

def initState : ServerState := ⟨[], [], [], []⟩

/-- The user list assembled by broadcastUserList (src/server.js:355-364). -/
def userListSnapshot (st : ServerState) : List UserSummary :=
  st.users.map (fun p => ⟨p.2.id, p.2.name, p.2.isOnline, p.2.lastSeen⟩)

/-- GET /users (src/server.js:44-52): maps over every tracked user and
hardcodes `isOnline: true` in the response. -/
def getUsersEndpoint (st : ServerState) : List UserSummary :=
  st.users.map (fun p => ⟨p.2.id, p.2.name, true, p.2.lastSeen⟩)

/-- The register-user handler (src/server.js:58-95).  `freshId` stands for
the uuidv4() that would be drawn if no userId was supplied; `now` for
new Date(). -/
def handleRegister (st : ServerState) (socketId : String)
    (userId? name? : Option String) (freshId : String) (now : Nat) :
    ServerState × List Emit :=
  let uid := jsOr userId? freshId
  let uname := jsOr name? ("User_" ++ socketId.take 6)
  let user : User := ⟨uid, uname, socketId, now, true⟩
  let personalRoom := "user_" ++ uid
  let st' : ServerState :=
    { users := mapSet st.users socketId user
      rooms := ensureAdd st.rooms personalRoom socketId
      userRooms := ensureAdd st.userRooms uid personalRoom
      ioRooms := ensureAdd st.ioRooms personalRoom socketId }
  (st', [Emit.userRegistered socketId uid uname personalRoom,
         Emit.broadcastUserList (userListSnapshot st')])

/-- The join-room handler (src/server.js:98-134).  socket.to(roomId) reaches
every member of the socket.io room except the emitting socket. -/
def handleJoinRoom (st : ServerState) (socketId roomId : String) :
    ServerState × Ack × List Emit :=
  let ioRooms' := ensureAdd st.ioRooms roomId socketId
  let rooms' := ensureAdd st.rooms roomId socketId
  let user? := mapGet st.users socketId
  let userRooms' :=
    match user? with
    | some u => ensureAdd st.userRooms u.id roomId
    | none => st.userRooms
  let st' : ServerState :=
    { users := st.users, rooms := rooms', userRooms := userRooms', ioRooms := ioRooms' }
  let targets := ((mapGet ioRooms' roomId).getD []).filter (fun s => s != socketId)
  (st', Ack.success (some roomId),
   targets.map (fun t => Emit.userJoinedRoom t (user?.map User.id) (user?.map User.name) roomId))

/-- The leave-room handler (src/server.js:137-172). -/
def handleLeaveRoom (st : ServerState) (socketId roomId : String) :
    ServerState × Ack × List Emit :=
  let ioRooms' := delFrom st.ioRooms roomId socketId
  let rooms' := removeAndPrune st.rooms roomId socketId
  let user? := mapGet st.users socketId
  let userRooms' :=
    match user? with
    | some u => delFrom st.userRooms u.id roomId
    | none => st.userRooms
  let st' : ServerState :=
    { users := st.users, rooms := rooms', userRooms := userRooms', ioRooms := ioRooms' }
  let targets := ((mapGet ioRooms' roomId).getD []).filter (fun s => s != socketId)
  (st', Ack.success none,
   targets.map (fun t => Emit.userLeftRoom t (user?.map User.id) (user?.map User.name) roomId))

/-- The signal handler (src/server.js:175-216).  The target lookup is
`Array.from(users.values()).find(u => u.id === signalData.to)`: the first
entry in insertion order whose id matches, with no check of isOnline. -/
def handleSignal (st : ServerState) (socketId : String) (d : SignalData) (now : Nat) :
    ServerState × List Emit :=
  match mapGet st.users socketId with
  | none => (st, [])
  | some user =>
    match st.users.find? (fun p => p.2.id == d.toId) with
    | some tp => (st, [Emit.signal tp.2.socketId d user.id user.name now])
    | none => (st, [Emit.signalError socketId "User not found or offline" d.toId d])

/-- The chat-message handler (src/server.js:219-273).  `freshId` stands for
the uuidv4() message id. -/
def handleChat (st : ServerState) (socketId : String) (d : ChatData)
    (freshId : String) (now : Nat) : ServerState × List Emit :=
  match mapGet st.users socketId with
  | none => (st, [])
  | some user =>
    let msg : ChatMsg :=
      ⟨freshId, user.id, user.name, d.recipientId, d.content, now,
       jsOr d.msgType "text", "sent"⟩
    match st.users.find? (fun p => p.2.id == d.recipientId) with
    | some tp =>
      (st, [Emit.chatMessage tp.2.socketId msg,
            Emit.messageDelivered socketId freshId tp.2.id now])
    | none => (st, [Emit.messageOffline socketId freshId d.recipientId now])

/-- The typing handler (src/server.js:276-296): silent on any failure. -/
def handleTyping (st : ServerState) (socketId : String) (d : TypingData) (now : Nat) :
    ServerState × List Emit :=
  match mapGet st.users socketId with
  | none => (st, [])
  | some user =>
    match st.users.find? (fun p => p.2.id == d.recipientId) with
    | some tp => (st, [Emit.typing tp.2.socketId user.id user.name d.isTyping now])
    | none => (st, [])

/-- The disconnect handler (src/server.js:299-343).  socket.io has already
removed the socket from all its rooms when 'disconnect' fires.  The returned
`Option String` is the socketId whose registry entry the setTimeout at
src/server.js:331-334 will delete after the 5000 ms grace delay. -/
def handleDisconnect (st : ServerState) (socketId : String) (now : Nat) :
    ServerState × Option String × List Emit :=
  let ioRooms' := st.ioRooms.map (fun p => (p.1, setDelete p.2 socketId))
  match mapGet st.users socketId with
  | none => ({ st with ioRooms := ioRooms' }, none, [])
  | some user =>
    let user' : User := { user with isOnline := false, lastSeen := now }
    let users' := mapSet st.users socketId user'
    match mapGet st.userRooms user.id with
    | none =>
      ({ users := users', rooms := st.rooms, userRooms := st.userRooms,
         ioRooms := ioRooms' }, some socketId, [])
    | some roomList =>
      let rooms' := roomList.foldl (fun m r => removeAndPrune m r socketId) st.rooms
      let emits := roomList.foldl (fun acc r =>
        acc ++ (((mapGet ioRooms' r).getD []).filter (fun s => s != socketId)).map
          (fun t => Emit.userLeftRoom t (some user.id) (some user.name) r)) []
      ({ users := users', rooms := rooms', userRooms := mapDelete st.userRooms user.id,
         ioRooms := ioRooms' }, some socketId, emits)

/-- The grace delay of the deferred registry deletion (src/server.js:334). -/
def graceDelay : Nat := 5000

/-- The body of the setTimeout scheduled at disconnect (src/server.js:331-334):
delete the registry entry for the disconnected socket, then broadcast. -/
def runPendingDelete (st : ServerState) (socketId : String) :
    ServerState × List Emit :=
  let st' : ServerState := { st with users := mapDelete st.users socketId }
  (st', [Emit.broadcastUserList (userListSnapshot st')])

/-- The sweeper's inactivity threshold, 5 minutes (src/server.js:369). -/
def inactiveThreshold : Nat := 5 * 60 * 1000

/-- The periodic cleanup (src/server.js:367-379): for each tracked entry that
is offline and stale, delete the entry and the entire userRooms entry for its
user id.  JS Map iteration visits each original entry once even while the
loop deletes the entry it is visiting. -/
def sweepStep (now : Nat) (s : ServerState) (p : String × User) : ServerState :=
  if !p.2.isOnline && decide (inactiveThreshold < now - p.2.lastSeen) then
    { s with users := mapDelete s.users p.1,
             userRooms := mapDelete s.userRooms p.2.id }
  else s

def cleanupSweep (st : ServerState) (now : Nat) : ServerState :=
  st.users.foldl (sweepStep now) st

/-- One inbound event against the shared state (the operations the spec's
properties quantify over). -/
inductive Op where
  | register (socketId : String) (userId? name? : Option String) (freshId : String) (now : Nat)
  | join (socketId roomId : String)
  | leave (socketId roomId : String)
  | signal (socketId : String) (d : SignalData) (now : Nat)
  | chat (socketId : String) (d : ChatData) (freshId : String) (now : Nat)
  | typing (socketId : String) (d : TypingData) (now : Nat)
  | disconnect (socketId : String) (now : Nat)
  | pendingDelete (socketId : String)
  | sweep (now : Nat)
deriving Repr, DecidableEq

/-- The state change of one operation (sends discarded). -/
def applyOp (st : ServerState) : Op → ServerState
  | .register c u n f t => (handleRegister st c u n f t).1
  | .join c r => (handleJoinRoom st c r).1
  | .leave c r => (handleLeaveRoom st c r).1
  | .signal c d t => (handleSignal st c d t).1
  | .chat c d f t => (handleChat st c d f t).1
  | .typing c d t => (handleTyping st c d t).1
  | .disconnect c t => (handleDisconnect st c t).1
  | .pendingDelete c => (runPendingDelete st c).1
  | .sweep t => cleanupSweep st t

def applyOps (st : ServerState) (ops : List Op) : ServerState :=
  ops.foldl applyOp st

/-- The member set held at a key of a map-of-sets ([] when absent). -/
def getS (m : SMap (List String)) (k : String) : List String :=
  (mapGet m k).getD []

/-- Arguments of one register-user event (infrastructure for C1). -/
structure RegEvent where
  socketId : String
  userId : Option String
  name : Option String
  freshId : String
  now : Nat
deriving Repr, DecidableEq

def applyReg (st : ServerState) (e : RegEvent) : ServerState :=
  (handleRegister st e.socketId e.userId e.name e.freshId e.now).1

def applyRegs (es : List RegEvent) : ServerState :=
  es.foldl applyReg initState

def roomMembers (st : ServerState) (R : String) : List String := getS st.rooms R

def userRoomsOf (st : ServerState) (i : String) : List String := getS st.userRooms i

/-- The symmetry property of the claim: an entry's connection is in a room's
member set exactly when the room is in that user's reverse-index set. -/
def roomSym (st : ServerState) : Prop :=
  ∀ s u, mapGet st.users s = some u →
    ∀ R, s ∈ roomMembers st R ↔ R ∈ userRoomsOf st u.id

/-- Auxiliary invariant carried through the induction. -/
structure RoomInv (st : ServerState) : Prop where
  sym : roomSym st
  uniq : ∀ s u s' u', mapGet st.users s = some u → mapGet st.users s' = some u' →
    u.id = u'.id → s = s'
  reg : ∀ R c, c ∈ roomMembers st R → mapGet st.users c ≠ none
  urk : ∀ i l, mapGet st.userRooms i = some l →
    ∃ s u, mapGet st.users s = some u ∧ u.id = i

/-- Side conditions under which one operation keeps the symmetry: joins and
leaves come from a registered connection, and a registration's effective id
is not in use by a different connection (nor does a connection switch id).
The timer-driven deletions are outside the claim's operation set. -/
def goodOp (st : ServerState) : Op → Bool
  | .register c u _ f _ =>
    st.users.all (fun p =>
      (p.2.id != jsOr u f || p.1 == c) && (p.1 != c || p.2.id == jsOr u f))
  | .join c _ => (mapGet st.users c).isSome
  | .leave c _ => (mapGet st.users c).isSome
  | .signal _ _ _ => true
  | .chat _ _ _ _ => true
  | .typing _ _ _ => true
  | .disconnect _ _ => true
  | .pendingDelete _ => false
  | .sweep _ => false

def goodOps (st : ServerState) : List Op → Bool
  | [] => true
  | op :: rest => goodOp st op && goodOps (applyOp st op) rest

/-- A run in which u1 and u2 register and then u2 disconnects: the registry
still holds an entry for u2, now offline, until the delayed deletion fires. -/
def exOps : List Op :=
  [.register "c1" (some "u1") (some "n1") "f1" 1,
   .register "c2" (some "u2") (some "n2") "f2" 2,
   .disconnect "c2" 3]

def exState2 : ServerState := applyOps initState exOps

/-- A run in which u1 and u2 register and both stay online. -/
def exStateOnline : ServerState :=
  applyOps initState
    [.register "c1" (some "u1") (some "n1") "f1" 1,
     .register "c2" (some "u2") (some "n2") "f2" 2]

/-- A run in which uA, uB, uC register and all join room R. -/
def exState8 : ServerState :=
  applyOps initState
    [.register "cA" (some "uA") (some "nA") "fA" 1,
     .register "cB" (some "uB") (some "nB") "fB" 2,
     .register "cC" (some "uC") (some "nC") "fC" 3,
     .join "cA" "R", .join "cB" "R", .join "cC" "R"]

/-- A run in which an unregistered connection joins a room and only then
registers: the room index holds the connection but the reverse index does not
know the room. -/
def c4State : ServerState :=
  applyOps initState
    [.join "c1" "R", .register "c1" (some "u1") (some "n1") "f1" 1]

/-- A well-guarded run: register first, then join. -/
def c4GoodOps : List Op :=
  [.register "c1" (some "u1") (some "n1") "f1" 1, .join "c1" "R"]

/-- A run in which u2 disconnects and then reconnects under the same logical
id from a new connection: the stale offline entry for the old connection and
the fresh online entry share the id, and the reverse index for u2 is live. -/
def exState10 : ServerState :=
  applyOps initState
    [.register "c2" (some "u2") (some "n2") "f2" 1,
     .disconnect "c2" 2,
     .register "c3" (some "u2") (some "n3") "f3" 3]

/-! ### Lemmas about the JS Map / Set model -/

section MapLemmas

variable {α : Type}

theorem mapGet_mapSet_self (m : SMap α) (k : String) (v : α) :
    mapGet (mapSet m k v) k = some v := by
  induction m with
  | nil => simp [mapSet, mapGet]
  | cons p rest ih =>
    obtain ⟨a, b⟩ := p
    by_cases ha : a = k
    · simp [mapSet, ha, mapGet]
    · simp [mapSet, ha, mapGet, ih]

theorem mapGet_mapSet_ne (m : SMap α) {k k' : String} (v : α) (h : k' ≠ k) :
    mapGet (mapSet m k v) k' = mapGet m k' := by
  have hk : k ≠ k' := Ne.symm h
  induction m with
  | nil => simp [mapSet, mapGet, hk]
  | cons p rest ih =>
    obtain ⟨a, b⟩ := p
    by_cases ha : a = k
    · subst ha
      simp [mapSet, mapGet, hk]
    · simp [mapSet, ha, mapGet, ih]

theorem mapSet_self {m : SMap α} {k : String} {v : α}
    (h : mapGet m k = some v) : mapSet m k v = m := by
  induction m with
  | nil => simp [mapGet] at h
  | cons p rest ih =>
    obtain ⟨a, b⟩ := p
    by_cases ha : a = k
    · subst ha
      simp [mapGet] at h
      simp [mapSet, h]
    · simp [mapGet, ha] at h
      simp [mapSet, ha, ih h]

theorem mapDelete_nil (k : String) : mapDelete ([] : SMap α) k = [] := rfl

theorem mapDelete_cons (a : String) (b : α) (rest : SMap α) (k : String) :
    mapDelete ((a, b) :: rest) k =
      if a = k then mapDelete rest k else (a, b) :: mapDelete rest k := by
  by_cases ha : a = k <;> simp [mapDelete, List.filter_cons, ha]

theorem mapGet_mapDelete_self (m : SMap α) (k : String) :
    mapGet (mapDelete m k) k = none := by
  induction m with
  | nil => rfl
  | cons p rest ih =>
    obtain ⟨a, b⟩ := p
    rw [mapDelete_cons]
    by_cases ha : a = k
    · simpa [ha] using ih
    · simp [ha, mapGet, ih]

theorem mapGet_mapDelete_ne (m : SMap α) {k k' : String} (h : k' ≠ k) :
    mapGet (mapDelete m k) k' = mapGet m k' := by
  induction m with
  | nil => rfl
  | cons p rest ih =>
    obtain ⟨a, b⟩ := p
    rw [mapDelete_cons]
    by_cases ha : a = k
    · subst ha
      have : a ≠ k' := Ne.symm h
      simp [mapGet, this, ih]
    · simp [mapGet, ha, ih]

theorem mem_of_mapGet {m : SMap α} {k : String} {v : α}
    (h : mapGet m k = some v) : (k, v) ∈ m := by
  induction m with
  | nil => simp [mapGet] at h
  | cons p rest ih =>
    obtain ⟨a, b⟩ := p
    by_cases ha : a = k
    · subst ha
      simp [mapGet] at h
      simp [h]
    · simp [mapGet, ha] at h
      simp [ih h]

theorem mapGet_isSome_of_mem {m : SMap α} {k : String} {v : α}
    (h : (k, v) ∈ m) : mapGet m k ≠ none := by
  induction m with
  | nil => simp at h
  | cons p rest ih =>
    obtain ⟨a, b⟩ := p
    by_cases ha : a = k
    · simp [mapGet, ha]
    · rcases List.mem_cons.mp h with h₁ | h₂
      · exact absurd (congrArg Prod.fst h₁).symm ha
      · simp [mapGet, ha, ih h₂]

theorem mem_mapSet {m : SMap α} {k : String} {v : α} {p : String × α}
    (h : p ∈ mapSet m k v) : p ∈ m ∨ p = (k, v) := by
  induction m with
  | nil => simp [mapSet] at h; simp [h]
  | cons q rest ih =>
    obtain ⟨a, b⟩ := q
    by_cases ha : a = k
    · simp only [mapSet, ha, if_true] at h
      rcases List.mem_cons.mp h with h | h
      · right; exact h
      · left; exact List.mem_cons_of_mem _ h
    · simp only [mapSet, ha, if_false] at h
      rcases List.mem_cons.mp h with h | h
      · left; exact h ▸ List.mem_cons_self _ _
      · rcases ih h with h' | h'
        · left; exact List.mem_cons_of_mem _ h'
        · right; exact h'

theorem mem_mapDelete {m : SMap α} {k : String} {p : String × α}
    (h : p ∈ mapDelete m k) : p ∈ m :=
  List.mem_of_mem_filter h

theorem mapGet_eq_none_iff {m : SMap α} {k : String} :
    mapGet m k = none ↔ k ∉ m.map Prod.fst := by
  induction m with
  | nil => simp [mapGet]
  | cons p rest ih =>
    obtain ⟨a, b⟩ := p
    by_cases ha : a = k
    · simp [mapGet, ha]
    · have : k ≠ a := Ne.symm ha
      simp [mapGet, ha, ih, this]

theorem mapSet_keys (m : SMap α) (k : String) (v : α) :
    (mapSet m k v).map Prod.fst =
      if (mapGet m k).isNone then m.map Prod.fst ++ [k] else m.map Prod.fst := by
  induction m with
  | nil => simp [mapSet, mapGet]
  | cons p rest ih =>
    obtain ⟨a, b⟩ := p
    by_cases ha : a = k
    · simp [mapSet, ha, mapGet]
    · simp only [mapSet, ha, if_false, mapGet, List.map_cons]
      rw [ih]
      cases hn : (mapGet rest k).isNone <;> simp [hn, ha]

theorem nodup_keys_mapSet {m : SMap α} {k : String} (v : α)
    (h : (m.map Prod.fst).Nodup) : ((mapSet m k v).map Prod.fst).Nodup := by
  rw [mapSet_keys]
  cases hn : (mapGet m k).isNone
  · simpa [hn] using h
  · have hk : k ∉ m.map Prod.fst :=
      mapGet_eq_none_iff.mp (Option.isNone_iff_eq_none.mp hn)
    simp [hn, List.nodup_append, h, hk]

theorem setAdd_eq_self {l : List String} {x : String} (h : x ∈ l) :
    setAdd l x = l := by simp [setAdd, h]

theorem mem_setAdd {l : List String} {x y : String} :
    y ∈ setAdd l x ↔ y ∈ l ∨ y = x := by
  by_cases h : x ∈ l
  · rw [setAdd_eq_self h]
    constructor
    · exact Or.inl
    · rintro (hy | rfl)
      · exact hy
      · exact h
  · simp [setAdd, h]

theorem self_mem_setAdd (l : List String) (x : String) : x ∈ setAdd l x :=
  mem_setAdd.mpr (Or.inr rfl)

theorem setAdd_ne_nil (l : List String) (x : String) : setAdd l x ≠ [] := by
  intro h
  have hx := self_mem_setAdd l x
  rw [h] at hx
  exact List.not_mem_nil x hx

theorem mem_setDelete {l : List String} {x y : String} :
    y ∈ setDelete l x ↔ y ∈ l ∧ y ≠ x := by
  simp [setDelete, List.mem_filter]

theorem not_mem_setDelete_self (l : List String) (x : String) :
    x ∉ setDelete l x := by
  intro h
  exact (mem_setDelete.mp h).2 rfl

theorem setDelete_eq_self {l : List String} {x : String} (h : x ∉ l) :
    setDelete l x = l :=
  List.filter_eq_self.mpr (fun a ha => by
    simp only [bne_iff_ne, ne_eq, decide_eq_true_eq]
    exact fun hax => h (hax ▸ ha))

end MapLemmas

theorem ensureAdd_of_none {m : SMap (List String)} {k : String} (x : String)
    (h : mapGet m k = none) : ensureAdd m k x = mapSet m k (setAdd [] x) := by
  rw [ensureAdd, h]

theorem ensureAdd_of_some {m : SMap (List String)} {k : String} {l : List String}
    (x : String) (h : mapGet m k = some l) :
    ensureAdd m k x = mapSet m k (setAdd l x) := by
  rw [ensureAdd, h]

theorem mapGet_ensureAdd_self (m : SMap (List String)) (k x : String) :
    mapGet (ensureAdd m k x) k = some (setAdd (getS m k) x) := by
  cases h : mapGet m k with
  | none => rw [ensureAdd_of_none x h, mapGet_mapSet_self, getS, h]; rfl
  | some l => rw [ensureAdd_of_some x h, mapGet_mapSet_self, getS, h]; rfl

theorem mapGet_ensureAdd_ne (m : SMap (List String)) {k k' : String} (x : String)
    (h : k' ≠ k) : mapGet (ensureAdd m k x) k' = mapGet m k' := by
  cases hm : mapGet m k with
  | none => rw [ensureAdd_of_none x hm, mapGet_mapSet_ne _ _ h]
  | some l => rw [ensureAdd_of_some x hm, mapGet_mapSet_ne _ _ h]

theorem getS_ensureAdd_self (m : SMap (List String)) (k x : String) :
    getS (ensureAdd m k x) k = setAdd (getS m k) x := by
  rw [getS, mapGet_ensureAdd_self]; rfl

theorem getS_ensureAdd_ne (m : SMap (List String)) {k k' : String} (x : String)
    (h : k' ≠ k) : getS (ensureAdd m k x) k' = getS m k' := by
  rw [getS, mapGet_ensureAdd_ne _ _ h, getS]

theorem ensureAdd_idem (m : SMap (List String)) (k x : String) :
    ensureAdd (ensureAdd m k x) k x = ensureAdd m k x := by
  have h := mapGet_ensureAdd_self m k x
  have hx : x ∈ setAdd (getS m k) x := self_mem_setAdd _ _
  rw [ensureAdd_of_some x h, setAdd_eq_self hx, mapSet_self h]

theorem delFrom_of_none {m : SMap (List String)} {k : String} (x : String)
    (h : mapGet m k = none) : delFrom m k x = m := by
  rw [delFrom, h]

theorem delFrom_of_some {m : SMap (List String)} {k : String} {l : List String}
    (x : String) (h : mapGet m k = some l) :
    delFrom m k x = mapSet m k (setDelete l x) := by
  rw [delFrom, h]

theorem delFrom_idem (m : SMap (List String)) (k x : String) :
    delFrom (delFrom m k x) k x = delFrom m k x := by
  cases h : mapGet m k with
  | none => rw [delFrom_of_none x h, delFrom_of_none x h]
  | some l =>
    rw [delFrom_of_some x h]
    have h' : mapGet (mapSet m k (setDelete l x)) k = some (setDelete l x) :=
      mapGet_mapSet_self m k _
    rw [delFrom_of_some x h', setDelete_eq_self (not_mem_setDelete_self l x),
      mapSet_self h']

theorem getS_delFrom_self (m : SMap (List String)) (k x : String) :
    getS (delFrom m k x) k = setDelete (getS m k) x := by
  cases h : mapGet m k with
  | none => rw [delFrom_of_none x h, getS, h]; rfl
  | some l => rw [delFrom_of_some x h, getS, mapGet_mapSet_self, getS, h]; rfl

theorem getS_delFrom_ne (m : SMap (List String)) {k k' : String} (x : String)
    (h : k' ≠ k) : getS (delFrom m k x) k' = getS m k' := by
  cases hm : mapGet m k with
  | none => rw [delFrom_of_none x hm]
  | some l => rw [delFrom_of_some x hm, getS, mapGet_mapSet_ne _ _ h, getS]

theorem removeAndPrune_of_none {m : SMap (List String)} {k : String} (x : String)
    (h : mapGet m k = none) : removeAndPrune m k x = m := by
  rw [removeAndPrune, h]

theorem removeAndPrune_of_some {m : SMap (List String)} {k : String}
    {l : List String} (x : String) (h : mapGet m k = some l) :
    removeAndPrune m k x =
      if (setDelete l x).isEmpty then mapDelete m k else mapSet m k (setDelete l x) := by
  rw [removeAndPrune, h]

theorem removeAndPrune_idem (m : SMap (List String)) (k x : String) :
    removeAndPrune (removeAndPrune m k x) k x = removeAndPrune m k x := by
  cases h : mapGet m k with
  | none => rw [removeAndPrune_of_none x h, removeAndPrune_of_none x h]
  | some l =>
    rw [removeAndPrune_of_some x h]
    by_cases he : (setDelete l x).isEmpty
    · rw [if_pos he, removeAndPrune_of_none x (mapGet_mapDelete_self m k)]
    · rw [if_neg he]
      have h' : mapGet (mapSet m k (setDelete l x)) k = some (setDelete l x) :=
        mapGet_mapSet_self m k _
      rw [removeAndPrune_of_some x h', setDelete_eq_self (not_mem_setDelete_self l x),
        if_neg he, mapSet_self h']

theorem getS_removeAndPrune_ne (m : SMap (List String)) {k k' : String} (x : String)
    (h : k' ≠ k) : getS (removeAndPrune m k x) k' = getS m k' := by
  cases hm : mapGet m k with
  | none => rw [removeAndPrune_of_none x hm]
  | some l =>
    rw [removeAndPrune_of_some x hm]
    by_cases he : (setDelete l x).isEmpty
    · rw [if_pos he, getS, mapGet_mapDelete_ne _ h, getS]
    · rw [if_neg he, getS, mapGet_mapSet_ne _ _ h, getS]

theorem isEmpty_eq_nil {l : List String} (h : l.isEmpty = true) : l = [] := by
  cases l with
  | nil => rfl
  | cons a t => simp [List.isEmpty] at h

theorem mem_getS_removeAndPrune {m : SMap (List String)} {k x y R : String} :
    y ∈ getS (removeAndPrune m k x) R ↔ y ∈ getS m R ∧ (R = k → y ≠ x) := by
  by_cases hR : R = k
  · subst hR
    cases hm : mapGet m R with
    | none =>
      rw [removeAndPrune_of_none x hm]
      have : getS m R = [] := by rw [getS, hm]; rfl
      simp [this]
    | some l =>
      have hl : getS m R = l := by rw [getS, hm]; rfl
      rw [removeAndPrune_of_some x hm]
      by_cases he : (setDelete l x).isEmpty
      · have hempty : setDelete l x = [] := isEmpty_eq_nil he
        rw [if_pos he]
        constructor
        · intro hy
          rw [getS, mapGet_mapDelete_self] at hy
          simp at hy
        · rintro ⟨hy, hyx⟩
          have hmem : y ∈ setDelete l x :=
            mem_setDelete.mpr ⟨hl ▸ hy, hyx rfl⟩
          rw [hempty] at hmem
          simp at hmem
      · rw [if_neg he]
        have hgs : getS (mapSet m R (setDelete l x)) R = setDelete l x := by
          rw [getS, mapGet_mapSet_self]; rfl
        rw [hgs, mem_setDelete, hl]
        constructor
        · rintro ⟨h1, h2⟩
          exact ⟨h1, fun _ => h2⟩
        · rintro ⟨h1, h2⟩
          exact ⟨h1, h2 rfl⟩
  · rw [getS_removeAndPrune_ne _ _ hR]
    simp [hR]

theorem mem_getS_foldRemove {L : List String} {m : SMap (List String)} {x y R : String} :
    y ∈ getS (L.foldl (fun m' r => removeAndPrune m' r x) m) R ↔
      y ∈ getS m R ∧ (R ∈ L → y ≠ x) := by
  induction L generalizing m with
  | nil => simp
  | cons r L' ih =>
    simp only [List.foldl_cons]
    rw [ih, mem_getS_removeAndPrune]
    constructor
    · rintro ⟨⟨h1, h2⟩, h3⟩
      refine ⟨h1, fun hmem => ?_⟩
      rcases List.mem_cons.mp hmem with rfl | hmem'
      · exact h2 rfl
      · exact h3 hmem'
    · rintro ⟨h1, h2⟩
      exact ⟨⟨h1, fun hRr => h2 (hRr ▸ List.mem_cons_self r L')⟩,
             fun hmem => h2 (List.mem_cons_of_mem r hmem)⟩

/-! ### State equations for the handlers -/

theorem handleRegister_state (st : ServerState) (c : String)
    (u n : Option String) (f : String) (t : Nat) :
    (handleRegister st c u n f t).1 =
      { users := mapSet st.users c ⟨jsOr u f, jsOr n ("User_" ++ c.take 6), c, t, true⟩
        rooms := ensureAdd st.rooms ("user_" ++ jsOr u f) c
        userRooms := ensureAdd st.userRooms (jsOr u f) ("user_" ++ jsOr u f)
        ioRooms := ensureAdd st.ioRooms ("user_" ++ jsOr u f) c } := rfl

theorem handleJoinRoom_state (st : ServerState) (c r : String) :
    (handleJoinRoom st c r).1 =
      { users := st.users
        rooms := ensureAdd st.rooms r c
        userRooms :=
          match mapGet st.users c with
          | some u => ensureAdd st.userRooms u.id r
          | none => st.userRooms
        ioRooms := ensureAdd st.ioRooms r c } := rfl

theorem handleLeaveRoom_state (st : ServerState) (c r : String) :
    (handleLeaveRoom st c r).1 =
      { users := st.users
        rooms := removeAndPrune st.rooms r c
        userRooms :=
          match mapGet st.users c with
          | some u => delFrom st.userRooms u.id r
          | none => st.userRooms
        ioRooms := delFrom st.ioRooms r c } := rfl

theorem handleSignal_state (st : ServerState) (c : String) (d : SignalData) (t : Nat) :
    (handleSignal st c d t).1 = st := by
  unfold handleSignal
  cases mapGet st.users c with
  | none => rfl
  | some u =>
    cases st.users.find? (fun p => p.2.id == d.toId) with
    | none => rfl
    | some tp => rfl

theorem handleChat_state (st : ServerState) (c : String) (d : ChatData)
    (f : String) (t : Nat) : (handleChat st c d f t).1 = st := by
  unfold handleChat
  cases mapGet st.users c with
  | none => rfl
  | some u =>
    cases st.users.find? (fun p => p.2.id == d.recipientId) with
    | none => rfl
    | some tp => rfl

theorem handleTyping_state (st : ServerState) (c : String) (d : TypingData)
    (t : Nat) : (handleTyping st c d t).1 = st := by
  unfold handleTyping
  cases mapGet st.users c with
  | none => rfl
  | some u =>
    cases st.users.find? (fun p => p.2.id == d.recipientId) with
    | none => rfl
    | some tp => rfl

theorem handleDisconnect_of_noUser {st : ServerState} {c : String} (t : Nat)
    (h : mapGet st.users c = none) :
    (handleDisconnect st c t).1 =
      { st with ioRooms := st.ioRooms.map (fun p => (p.1, setDelete p.2 c)) } := by
  unfold handleDisconnect
  rw [h]

theorem handleDisconnect_of_user_noRooms {st : ServerState} {c : String} {u : User}
    (t : Nat) (h : mapGet st.users c = some u)
    (h2 : mapGet st.userRooms u.id = none) :
    (handleDisconnect st c t).1 =
      { users := mapSet st.users c { u with isOnline := false, lastSeen := t }
        rooms := st.rooms
        userRooms := st.userRooms
        ioRooms := st.ioRooms.map (fun p => (p.1, setDelete p.2 c)) } := by
  unfold handleDisconnect
  simp only [h, h2]

theorem handleDisconnect_of_user_rooms {st : ServerState} {c : String} {u : User}
    {L : List String} (t : Nat) (h : mapGet st.users c = some u)
    (h2 : mapGet st.userRooms u.id = some L) :
    (handleDisconnect st c t).1 =
      { users := mapSet st.users c { u with isOnline := false, lastSeen := t }
        rooms := L.foldl (fun m r => removeAndPrune m r c) st.rooms
        userRooms := mapDelete st.userRooms u.id
        ioRooms := st.ioRooms.map (fun p => (p.1, setDelete p.2 c)) } := by
  unfold handleDisconnect
  simp only [h, h2]

theorem runPendingDelete_state (st : ServerState) (c : String) :
    (runPendingDelete st c).1 = { st with users := mapDelete st.users c } := rfl

theorem foldl_sweep_rooms (now : Nat) (l : List (String × User)) (s : ServerState) :
    (l.foldl (sweepStep now) s).rooms = s.rooms := by
  induction l generalizing s with
  | nil => rfl
  | cons p l' ih =>
    rw [List.foldl_cons, ih]
    unfold sweepStep
    by_cases h : (!p.2.isOnline && decide (inactiveThreshold < now - p.2.lastSeen)) = true
    · rw [if_pos h]
    · rw [if_neg h]

theorem cleanupSweep_rooms (st : ServerState) (now : Nat) :
    (cleanupSweep st now).rooms = st.rooms :=
  foldl_sweep_rooms now st.users st

theorem foldl_sweep_ioRooms (now : Nat) (l : List (String × User)) (s : ServerState) :
    (l.foldl (sweepStep now) s).ioRooms = s.ioRooms := by
  induction l generalizing s with
  | nil => rfl
  | cons p l' ih =>
    rw [List.foldl_cons, ih]
    unfold sweepStep
    by_cases h : (!p.2.isOnline && decide (inactiveThreshold < now - p.2.lastSeen)) = true
    · rw [if_pos h]
    · rw [if_neg h]

/-! ### No room with an empty member set persists (infrastructure for C5) -/

theorem allNonempty_ensureAdd {m : SMap (List String)} (k x : String)
    (h : ∀ p ∈ m, p.2 ≠ []) : ∀ p ∈ ensureAdd m k x, p.2 ≠ [] := by
  intro p hp
  cases hm : mapGet m k with
  | none =>
    rw [ensureAdd_of_none x hm] at hp
    rcases mem_mapSet hp with h' | h'
    · exact h p h'
    · subst h'; exact setAdd_ne_nil [] x
  | some l =>
    rw [ensureAdd_of_some x hm] at hp
    rcases mem_mapSet hp with h' | h'
    · exact h p h'
    · subst h'; exact setAdd_ne_nil l x

theorem allNonempty_removeAndPrune {m : SMap (List String)} (k x : String)
    (h : ∀ p ∈ m, p.2 ≠ []) : ∀ p ∈ removeAndPrune m k x, p.2 ≠ [] := by
  intro p hp
  cases hm : mapGet m k with
  | none => rw [removeAndPrune_of_none x hm] at hp; exact h p hp
  | some l =>
    rw [removeAndPrune_of_some x hm] at hp
    by_cases he : (setDelete l x).isEmpty
    · rw [if_pos he] at hp
      exact h p (mem_mapDelete hp)
    · rw [if_neg he] at hp
      rcases mem_mapSet hp with h' | h'
      · exact h p h'
      · subst h'
        intro hc
        have hc' : setDelete l x = [] := hc
        exact he (by rw [hc']; rfl)

theorem allNonempty_foldRemove {L : List String} {m : SMap (List String)} {x : String}
    (h : ∀ p ∈ m, p.2 ≠ []) :
    ∀ p ∈ L.foldl (fun m' r => removeAndPrune m' r x) m, p.2 ≠ [] := by
  induction L generalizing m with
  | nil => exact h
  | cons r L' ih =>
    rw [List.foldl_cons]
    exact ih (allNonempty_removeAndPrune r x h)

theorem roomsNonempty_applyOp (st : ServerState) (op : Op)
    (h : ∀ p ∈ st.rooms, p.2 ≠ []) : ∀ p ∈ (applyOp st op).rooms, p.2 ≠ [] := by
  cases op with
  | register c u n f t =>
    show ∀ p ∈ ((handleRegister st c u n f t).1).rooms, p.2 ≠ []
    rw [handleRegister_state]
    exact allNonempty_ensureAdd _ _ h
  | join c r =>
    show ∀ p ∈ ((handleJoinRoom st c r).1).rooms, p.2 ≠ []
    rw [handleJoinRoom_state]
    exact allNonempty_ensureAdd _ _ h
  | leave c r =>
    show ∀ p ∈ ((handleLeaveRoom st c r).1).rooms, p.2 ≠ []
    rw [handleLeaveRoom_state]
    exact allNonempty_removeAndPrune _ _ h
  | signal c d t =>
    show ∀ p ∈ ((handleSignal st c d t).1).rooms, p.2 ≠ []
    rw [handleSignal_state]
    exact h
  | chat c d f t =>
    show ∀ p ∈ ((handleChat st c d f t).1).rooms, p.2 ≠ []
    rw [handleChat_state]
    exact h
  | typing c d t =>
    show ∀ p ∈ ((handleTyping st c d t).1).rooms, p.2 ≠ []
    rw [handleTyping_state]
    exact h
  | disconnect c t =>
    show ∀ p ∈ ((handleDisconnect st c t).1).rooms, p.2 ≠ []
    cases hu : mapGet st.users c with
    | none => rw [handleDisconnect_of_noUser t hu]; exact h
    | some u =>
      cases hr : mapGet st.userRooms u.id with
      | none => rw [handleDisconnect_of_user_noRooms t hu hr]; exact h
      | some L =>
        rw [handleDisconnect_of_user_rooms t hu hr]
        exact allNonempty_foldRemove h
  | pendingDelete c =>
    show ∀ p ∈ ((runPendingDelete st c).1).rooms, p.2 ≠ []
    rw [runPendingDelete_state]
    exact h
  | sweep t =>
    show ∀ p ∈ (cleanupSweep st t).rooms, p.2 ≠ []
    rw [cleanupSweep_rooms]
    exact h

theorem roomsNonempty_applyOps (ops : List Op) (st : ServerState)
    (h : ∀ p ∈ st.rooms, p.2 ≠ []) : ∀ p ∈ (applyOps st ops).rooms, p.2 ≠ [] := by
  induction ops generalizing st with
  | nil => exact h
  | cons op ops' ih =>
    exact ih (applyOp st op) (roomsNonempty_applyOp st op h)

/-! ### The registry is keyed by connection id (infrastructure for C1) -/

theorem nodup_keys_applyReg (st : ServerState) (e : RegEvent)
    (h : (st.users.map Prod.fst).Nodup) :
    (((applyReg st e).users).map Prod.fst).Nodup := by
  rw [applyReg, handleRegister_state]
  exact nodup_keys_mapSet _ h

theorem nodup_keys_foldRegs (es : List RegEvent) (st : ServerState)
    (h : (st.users.map Prod.fst).Nodup) :
    (((es.foldl applyReg st).users).map Prod.fst).Nodup := by
  induction es generalizing st with
  | nil => exact h
  | cons e es' ih => exact ih (applyReg st e) (nodup_keys_applyReg st e h)
/-! ### Room symmetry (infrastructure for C4) -/

theorem mem_getS {m : SMap (List String)} {k y : String} :
    y ∈ getS m k ↔ ∃ l, mapGet m k = some l ∧ y ∈ l := by
  cases h : mapGet m k <;> simp [getS, h]

theorem getS_eq_of_mapGet {m : SMap (List String)} {k : String} {l : List String}
    (h : mapGet m k = some l) : getS m k = l := by
  rw [getS, h]; rfl

theorem mapGet_mapSet_cases {α : Type} {m : SMap α} {k s : String} {w v : α}
    (h : mapGet (mapSet m k w) s = some v) :
    (s = k ∧ v = w) ∨ (s ≠ k ∧ mapGet m s = some v) := by
  by_cases hsk : s = k
  · subst hsk
    rw [mapGet_mapSet_self] at h
    exact Or.inl ⟨rfl, (Option.some.inj h).symm⟩
  · rw [mapGet_mapSet_ne _ _ hsk] at h
    exact Or.inr ⟨hsk, h⟩

theorem mapGet_mapSet_ne_none {α : Type} {m : SMap α} {k s : String} (w : α)
    (h : mapGet m s ≠ none) : mapGet (mapSet m k w) s ≠ none := by
  by_cases hsk : s = k
  · subst hsk
    rw [mapGet_mapSet_self]
    simp
  · rwa [mapGet_mapSet_ne _ _ hsk]

theorem goodRegister_ids {st : ServerState} {c : String} {u n : Option String}
    {f : String} {t : Nat} (hg : goodOp st (.register c u n f t) = true) :
    (∀ s v, mapGet st.users s = some v → v.id = jsOr u f → s = c) ∧
    (∀ v, mapGet st.users c = some v → v.id = jsOr u f) := by
  unfold goodOp at hg
  rw [List.all_eq_true] at hg
  constructor
  · intro s v hs hid
    have h := hg (s, v) (mem_of_mapGet hs)
    simp only [Bool.and_eq_true, Bool.or_eq_true, bne_iff_ne, ne_eq, beq_iff_eq] at h
    rcases h.1 with h' | h'
    · exact absurd hid h'
    · exact h'
  · intro v hc
    have h := hg (c, v) (mem_of_mapGet hc)
    simp only [Bool.and_eq_true, Bool.or_eq_true, bne_iff_ne, ne_eq, beq_iff_eq] at h
    rcases h.2 with h' | h'
    · exact absurd trivial h'
    · exact h'

theorem RoomInv_register {st : ServerState} {c : String} {u n : Option String}
    {f : String} {t : Nat} (inv : RoomInv st)
    (hg : goodOp st (.register c u n f t) = true) :
    RoomInv (applyOp st (.register c u n f t)) := by
  obtain ⟨hA, hB⟩ := goodRegister_ids hg
  show RoomInv (handleRegister st c u n f t).1
  rw [handleRegister_state]
  refine ⟨?_, ?_, ?_, ?_⟩
  · -- symmetry
    intro s v hs R
    simp only [roomMembers, userRoomsOf]
    by_cases hsc : s = c
    · subst hsc
      rw [mapGet_mapSet_self] at hs
      have hv : v = ⟨jsOr u f, jsOr n ("User_" ++ s.take 6), s, t, true⟩ :=
        (Option.some.inj hs).symm
      have hvid : v.id = jsOr u f := by rw [hv]
      rw [hvid]
      by_cases hRP : R = "user_" ++ jsOr u f
      · subst hRP
        rw [getS_ensureAdd_self, getS_ensureAdd_self]
        exact iff_of_true (self_mem_setAdd _ _) (self_mem_setAdd _ _)
      · rw [getS_ensureAdd_ne _ _ hRP, getS_ensureAdd_self, mem_setAdd,
          or_iff_left hRP]
        cases hc : mapGet st.users s with
        | none =>
          constructor
          · intro hin
            exact absurd hc (inv.reg R s hin)
          · intro hin
            obtain ⟨l, hl, _⟩ := mem_getS.mp hin
            obtain ⟨s₀, u₀, hs₀, hu₀⟩ := inv.urk (jsOr u f) l hl
            have hse := hA s₀ u₀ hs₀ hu₀
            rw [hse, hc] at hs₀
            exact absurd hs₀ (by simp)
        | some oldU =>
          have hoid : oldU.id = jsOr u f := hB oldU hc
          have hsym := inv.sym s oldU hc R
          rw [hoid] at hsym
          exact hsym
    · -- an untouched entry
      rw [mapGet_mapSet_ne _ _ hsc] at hs
      have hvid : v.id ≠ jsOr u f := fun hid => hsc (hA s v hs hid)
      rw [getS_ensureAdd_ne _ _ hvid]
      by_cases hRP : R = "user_" ++ jsOr u f
      · subst hRP
        rw [getS_ensureAdd_self, mem_setAdd, or_iff_left hsc]
        exact inv.sym s v hs _
      · rw [getS_ensureAdd_ne _ _ hRP]
        exact inv.sym s v hs R
  · -- unique ids
    intro s v s' v' hs hs' hid
    by_cases hs1 : s = c <;> by_cases hs2 : s' = c
    · rw [hs1, hs2]
    · exfalso
      subst hs1
      rw [mapGet_mapSet_self] at hs
      rw [mapGet_mapSet_ne _ _ hs2] at hs'
      have hv : v = ⟨jsOr u f, jsOr n ("User_" ++ s.take 6), s, t, true⟩ :=
        (Option.some.inj hs).symm
      apply hs2
      apply hA s' v' hs'
      rw [← hid, hv]
    · exfalso
      subst hs2
      rw [mapGet_mapSet_self] at hs'
      rw [mapGet_mapSet_ne _ _ hs1] at hs
      have hv : v' = ⟨jsOr u f, jsOr n ("User_" ++ s'.take 6), s', t, true⟩ :=
        (Option.some.inj hs').symm
      apply hs1
      apply hA s v hs
      rw [hid, hv]
    · rw [mapGet_mapSet_ne _ _ hs1] at hs
      rw [mapGet_mapSet_ne _ _ hs2] at hs'
      exact inv.uniq s v s' v' hs hs' hid
  · -- members are registered
    intro R x hx
    simp only [roomMembers] at hx
    by_cases hRP : R = "user_" ++ jsOr u f
    · subst hRP
      rw [getS_ensureAdd_self, mem_setAdd] at hx
      rcases hx with hx | rfl
      · exact mapGet_mapSet_ne_none _ (inv.reg _ x hx)
      · rw [mapGet_mapSet_self]
        simp
    · rw [getS_ensureAdd_ne _ _ hRP] at hx
      exact mapGet_mapSet_ne_none _ (inv.reg R x hx)
  · -- userRooms keys are ids of registry entries
    intro i l hl
    by_cases hie : i = jsOr u f
    · subst hie
      exact ⟨c, ⟨jsOr u f, jsOr n ("User_" ++ c.take 6), c, t, true⟩,
        mapGet_mapSet_self _ _ _, rfl⟩
    · rw [mapGet_ensureAdd_ne _ _ hie] at hl
      obtain ⟨s₀, u₀, hs₀, hu₀⟩ := inv.urk i l hl
      have hs₀c : s₀ ≠ c := by
        intro hcc
        subst hcc
        exact hie (hu₀ ▸ hB u₀ hs₀)
      refine ⟨s₀, u₀, ?_, hu₀⟩
      rwa [mapGet_mapSet_ne _ _ hs₀c]

theorem handleJoinRoom_state_reg {st : ServerState} {c : String} {w : User}
    (r : String) (hw : mapGet st.users c = some w) :
    (handleJoinRoom st c r).1 =
      { users := st.users
        rooms := ensureAdd st.rooms r c
        userRooms := ensureAdd st.userRooms w.id r
        ioRooms := ensureAdd st.ioRooms r c } := by
  rw [handleJoinRoom_state]
  simp only [hw]

theorem RoomInv_join {st : ServerState} {c r : String} (inv : RoomInv st)
    (hg : goodOp st (.join c r) = true) : RoomInv (applyOp st (.join c r)) := by
  unfold goodOp at hg
  obtain ⟨w, hw⟩ := Option.isSome_iff_exists.mp hg
  show RoomInv (handleJoinRoom st c r).1
  rw [handleJoinRoom_state_reg r hw]
  refine ⟨?_, ?_, ?_, ?_⟩
  · intro s v hs R
    simp only [roomMembers, userRoomsOf] at *
    by_cases hsc : s = c
    · subst hsc
      have hv : v = w := Option.some.inj (hs.symm.trans hw)
      subst hv
      by_cases hRr : R = r
      · subst hRr
        rw [getS_ensureAdd_self, getS_ensureAdd_self]
        exact iff_of_true (self_mem_setAdd _ _) (self_mem_setAdd _ _)
      · rw [getS_ensureAdd_ne _ _ hRr, getS_ensureAdd_self, mem_setAdd,
          or_iff_left hRr]
        exact inv.sym s v hs R
    · have hvid : v.id ≠ w.id := fun hid => hsc (inv.uniq s v c w hs hw hid)
      rw [getS_ensureAdd_ne _ _ hvid]
      by_cases hRr : R = r
      · subst hRr
        rw [getS_ensureAdd_self, mem_setAdd, or_iff_left hsc]
        exact inv.sym s v hs _
      · rw [getS_ensureAdd_ne _ _ hRr]
        exact inv.sym s v hs R
  · exact inv.uniq
  · intro R x hx
    simp only [roomMembers] at hx
    by_cases hRr : R = r
    · subst hRr
      rw [getS_ensureAdd_self, mem_setAdd] at hx
      rcases hx with hx | rfl
      · exact inv.reg _ x hx
      · rw [hw]; simp
    · rw [getS_ensureAdd_ne _ _ hRr] at hx
      exact inv.reg R x hx
  · intro i l hl
    by_cases hie : i = w.id
    · subst hie
      exact ⟨c, w, hw, rfl⟩
    · rw [mapGet_ensureAdd_ne _ _ hie] at hl
      exact inv.urk i l hl

theorem getS_mapDelete_self (m : SMap (List String)) (k : String) :
    getS (mapDelete m k) k = [] := by
  rw [getS, mapGet_mapDelete_self]; rfl

theorem getS_mapDelete_ne (m : SMap (List String)) {k k' : String} (h : k' ≠ k) :
    getS (mapDelete m k) k' = getS m k' := by
  rw [getS, mapGet_mapDelete_ne _ h, getS]

theorem handleLeaveRoom_state_reg {st : ServerState} {c : String} {w : User}
    (r : String) (hw : mapGet st.users c = some w) :
    (handleLeaveRoom st c r).1 =
      { users := st.users
        rooms := removeAndPrune st.rooms r c
        userRooms := delFrom st.userRooms w.id r
        ioRooms := delFrom st.ioRooms r c } := by
  rw [handleLeaveRoom_state]
  simp only [hw]

theorem RoomInv_leave {st : ServerState} {c r : String} (inv : RoomInv st)
    (hg : goodOp st (.leave c r) = true) : RoomInv (applyOp st (.leave c r)) := by
  unfold goodOp at hg
  obtain ⟨w, hw⟩ := Option.isSome_iff_exists.mp hg
  show RoomInv (handleLeaveRoom st c r).1
  rw [handleLeaveRoom_state_reg r hw]
  refine ⟨?_, ?_, ?_, ?_⟩
  · intro s v hs R
    simp only [roomMembers, userRoomsOf]
    by_cases hsc : s = c
    · subst hsc
      have hv : v = w := Option.some.inj (hs.symm.trans hw)
      subst hv
      rw [getS_delFrom_self, mem_getS_removeAndPrune, mem_setDelete]
      by_cases hRr : R = r
      · constructor
        · rintro ⟨_, h2⟩
          exact absurd rfl (h2 hRr)
        · rintro ⟨_, h2⟩
          exact absurd hRr h2
      · rw [and_iff_left (fun h => absurd h hRr : R = r → s ≠ s),
          and_iff_left hRr]
        exact inv.sym s v hs R
    · have hvid : v.id ≠ w.id := fun hid => hsc (inv.uniq s v c w hs hw hid)
      rw [getS_delFrom_ne _ _ hvid, mem_getS_removeAndPrune,
        and_iff_left (fun _ => hsc : R = r → s ≠ c)]
      exact inv.sym s v hs R
  · exact inv.uniq
  · intro R x hx
    simp only [roomMembers] at hx
    rw [mem_getS_removeAndPrune] at hx
    exact inv.reg R x hx.1
  · intro i l hl
    by_cases hie : i = w.id
    · subst hie
      exact ⟨c, w, hw, rfl⟩
    · cases hm : mapGet st.userRooms w.id with
      | none =>
        rw [delFrom_of_none _ hm] at hl
        exact inv.urk i l hl
      | some l₀ =>
        rw [delFrom_of_some _ hm, mapGet_mapSet_ne _ _ hie] at hl
        exact inv.urk i l hl

theorem RoomInv_disconnect {st : ServerState} {c : String} {t : Nat}
    (inv : RoomInv st) : RoomInv (applyOp st (.disconnect c t)) := by
  show RoomInv (handleDisconnect st c t).1
  cases hu : mapGet st.users c with
  | none =>
    rw [handleDisconnect_of_noUser t hu]
    exact ⟨inv.sym, inv.uniq, inv.reg, inv.urk⟩
  | some w =>
    cases hr : mapGet st.userRooms w.id with
    | none =>
      rw [handleDisconnect_of_user_noRooms t hu hr]
      refine ⟨?_, ?_, ?_, ?_⟩
      · intro s v hs R
        simp only [roomMembers, userRoomsOf]
        by_cases hsc : s = c
        · subst hsc
          rw [mapGet_mapSet_self] at hs
          have hv : v = { w with isOnline := false, lastSeen := t } :=
            (Option.some.inj hs).symm
          have hvid : v.id = w.id := by rw [hv]
          rw [hvid]
          exact inv.sym s w hu R
        · rw [mapGet_mapSet_ne _ _ hsc] at hs
          exact inv.sym s v hs R
      · intro s v s' v' hs hs' hid
        by_cases hs1 : s = c <;> by_cases hs2 : s' = c
        · rw [hs1, hs2]
        · exfalso
          subst hs1
          rw [mapGet_mapSet_self] at hs
          rw [mapGet_mapSet_ne _ _ hs2] at hs'
          have hv : v = { w with isOnline := false, lastSeen := t } :=
            (Option.some.inj hs).symm
          have hvid : v'.id = w.id := by rw [← hid, hv]
          exact hs2 (inv.uniq s' v' s w hs' hu hvid)
        · exfalso
          subst hs2
          rw [mapGet_mapSet_self] at hs'
          rw [mapGet_mapSet_ne _ _ hs1] at hs
          have hv : v' = { w with isOnline := false, lastSeen := t } :=
            (Option.some.inj hs').symm
          have hvid : v.id = w.id := by rw [hid, hv]
          exact hs1 (inv.uniq s v s' w hs hu hvid)
        · rw [mapGet_mapSet_ne _ _ hs1] at hs
          rw [mapGet_mapSet_ne _ _ hs2] at hs'
          exact inv.uniq s v s' v' hs hs' hid
      · intro R x hx
        simp only [roomMembers] at hx
        exact mapGet_mapSet_ne_none _ (inv.reg R x hx)
      · intro i l hl
        obtain ⟨s₀, u₀, hs₀, hu₀⟩ := inv.urk i l hl
        by_cases hs₀c : s₀ = c
        · subst hs₀c
          have hu₀w : u₀ = w := Option.some.inj (hs₀.symm.trans hu)
          refine ⟨s₀, { w with isOnline := false, lastSeen := t },
            mapGet_mapSet_self _ _ _, ?_⟩
          show w.id = i
          rw [← hu₀w]
          exact hu₀
        · exact ⟨s₀, u₀, by rwa [mapGet_mapSet_ne _ _ hs₀c], hu₀⟩
    | some L =>
      rw [handleDisconnect_of_user_rooms t hu hr]
      refine ⟨?_, ?_, ?_, ?_⟩
      · intro s v hs R
        simp only [roomMembers, userRoomsOf]
        by_cases hsc : s = c
        · subst hsc
          rw [mapGet_mapSet_self] at hs
          have hv : v = { w with isOnline := false, lastSeen := t } :=
            (Option.some.inj hs).symm
          have hvid : v.id = w.id := by rw [hv]
          rw [hvid, getS_mapDelete_self]
          apply iff_of_false
          · intro hL
            obtain ⟨h1, h2⟩ := mem_getS_foldRemove.mp hL
            by_cases hRL : R ∈ L
            · exact absurd rfl (h2 hRL)
            · have hin := (inv.sym s w hu R).mp h1
              rw [userRoomsOf, getS_eq_of_mapGet hr] at hin
              exact hRL hin
          · simp
        · rw [mapGet_mapSet_ne _ _ hsc] at hs
          have hvid : v.id ≠ w.id := fun hid => hsc (inv.uniq s v c w hs hu hid)
          rw [getS_mapDelete_ne _ hvid, mem_getS_foldRemove,
            and_iff_left (fun _ => hsc : R ∈ L → s ≠ c)]
          exact inv.sym s v hs R
      · intro s v s' v' hs hs' hid
        by_cases hs1 : s = c <;> by_cases hs2 : s' = c
        · rw [hs1, hs2]
        · exfalso
          subst hs1
          rw [mapGet_mapSet_self] at hs
          rw [mapGet_mapSet_ne _ _ hs2] at hs'
          have hv : v = { w with isOnline := false, lastSeen := t } :=
            (Option.some.inj hs).symm
          have hvid : v'.id = w.id := by rw [← hid, hv]
          exact hs2 (inv.uniq s' v' s w hs' hu hvid)
        · exfalso
          subst hs2
          rw [mapGet_mapSet_self] at hs'
          rw [mapGet_mapSet_ne _ _ hs1] at hs
          have hv : v' = { w with isOnline := false, lastSeen := t } :=
            (Option.some.inj hs').symm
          have hvid : v.id = w.id := by rw [hid, hv]
          exact hs1 (inv.uniq s v s' w hs hu hvid)
        · rw [mapGet_mapSet_ne _ _ hs1] at hs
          rw [mapGet_mapSet_ne _ _ hs2] at hs'
          exact inv.uniq s v s' v' hs hs' hid
      · intro R x hx
        simp only [roomMembers] at hx
        rw [mem_getS_foldRemove] at hx
        exact mapGet_mapSet_ne_none _ (inv.reg R x hx.1)
      · intro i l hl
        have hie : i ≠ w.id := by
          intro h
          subst h
          rw [mapGet_mapDelete_self] at hl
          exact absurd hl (by simp)
        rw [mapGet_mapDelete_ne _ hie] at hl
        obtain ⟨s₀, u₀, hs₀, hu₀⟩ := inv.urk i l hl
        have hs₀c : s₀ ≠ c := by
          intro hcc
          subst hcc
          have hu₀w : u₀ = w := Option.some.inj (hs₀.symm.trans hu)
          exact hie (hu₀ ▸ congrArg User.id hu₀w)
        exact ⟨s₀, u₀, by rwa [mapGet_mapSet_ne _ _ hs₀c], hu₀⟩

theorem RoomInv_applyOp {st : ServerState} {op : Op} (inv : RoomInv st)
    (hg : goodOp st op = true) : RoomInv (applyOp st op) := by
  cases op with
  | register c u n f t => exact RoomInv_register inv hg
  | join c r => exact RoomInv_join inv hg
  | leave c r => exact RoomInv_leave inv hg
  | signal c d t =>
    show RoomInv (handleSignal st c d t).1
    rw [handleSignal_state]
    exact inv
  | chat c d f t =>
    show RoomInv (handleChat st c d f t).1
    rw [handleChat_state]
    exact inv
  | typing c d t =>
    show RoomInv (handleTyping st c d t).1
    rw [handleTyping_state]
    exact inv
  | disconnect c t => exact RoomInv_disconnect inv
  | pendingDelete c => simp [goodOp] at hg
  | sweep t => simp [goodOp] at hg

theorem RoomInv_init : RoomInv initState := by
  refine ⟨?_, ?_, ?_, ?_⟩
  · intro s v hs
    simp [initState, mapGet] at hs
  · intro s v s' v' hs
    simp [initState, mapGet] at hs
  · intro R x hx
    simp [roomMembers, initState, getS, mapGet] at hx
  · intro i l hl
    simp [initState, mapGet] at hl

theorem RoomInv_applyOps (ops : List Op) (st : ServerState) (inv : RoomInv st)
    (hg : goodOps st ops = true) : RoomInv (applyOps st ops) := by
  induction ops generalizing st with
  | nil => exact inv
  | cons op rest ih =>
    unfold goodOps at hg
    rw [Bool.and_eq_true] at hg
    exact ih (applyOp st op) (RoomInv_applyOp inv hg.1) hg.2

/-! ### Idempotence of join and leave (infrastructure for C9) -/

theorem handleJoinRoom_state_idem (st : ServerState) (c r : String) :
    (handleJoinRoom (handleJoinRoom st c r).1 c r).1 = (handleJoinRoom st c r).1 := by
  cases hw : mapGet st.users c with
  | none => simp [handleJoinRoom_state, hw, ensureAdd_idem]
  | some u => simp [handleJoinRoom_state, hw, ensureAdd_idem]

theorem handleLeaveRoom_state_idem (st : ServerState) (c r : String) :
    (handleLeaveRoom (handleLeaveRoom st c r).1 c r).1 = (handleLeaveRoom st c r).1 := by
  cases hw : mapGet st.users c with
  | none => simp [handleLeaveRoom_state, hw, removeAndPrune_idem, delFrom_idem]
  | some u => simp [handleLeaveRoom_state, hw, removeAndPrune_idem, delFrom_idem]

/-! ### The sweeper (infrastructure for C10) -/

theorem mapGet_mapDelete_of_none {α : Type} {m : SMap α} {i : String} (k : String)
    (h : mapGet m i = none) : mapGet (mapDelete m k) i = none := by
  by_cases hik : i = k
  · subst hik
    exact mapGet_mapDelete_self m i
  · rwa [mapGet_mapDelete_ne _ hik]

theorem mem_mapDelete_of_ne {α : Type} {m : SMap α} {k' k : String} {v : α}
    (h : (k', v) ∈ m) (hne : k' ≠ k) : (k', v) ∈ mapDelete m k :=
  List.mem_filter.mpr ⟨h, by simp [hne]⟩

theorem nodup_keys_eq {α : Type} {m : SMap α} (h : (m.map Prod.fst).Nodup)
    {k : String} {a b : α} (ha : (k, a) ∈ m) (hb : (k, b) ∈ m) : a = b := by
  induction m with
  | nil => simp at ha
  | cons p rest ih =>
    obtain ⟨x, y⟩ := p
    simp only [List.map_cons, List.nodup_cons] at h
    rcases List.mem_cons.mp ha with ha' | ha' <;>
      rcases List.mem_cons.mp hb with hb' | hb'
    · have h1 : a = y := congrArg Prod.snd ha'
      have h2 : b = y := congrArg Prod.snd hb'
      rw [h1, h2]
    · exfalso
      apply h.1
      have hkx : x = k := (congrArg Prod.fst ha').symm
      subst hkx
      exact List.mem_map_of_mem Prod.fst hb'
    · exfalso
      apply h.1
      have hkx : x = k := (congrArg Prod.fst hb').symm
      subst hkx
      exact List.mem_map_of_mem Prod.fst ha'
    · exact ih h.2 ha' hb'

theorem foldl_sweep_userRooms_none (now : Nat) (l : List (String × User))
    (s : ServerState) (i : String) (h : mapGet s.userRooms i = none) :
    mapGet ((l.foldl (sweepStep now) s).userRooms) i = none := by
  induction l generalizing s with
  | nil => exact h
  | cons p l' ih =>
    rw [List.foldl_cons]
    apply ih
    unfold sweepStep
    by_cases hc : (!p.2.isOnline && decide (inactiveThreshold < now - p.2.lastSeen)) = true
    · rw [if_pos hc]
      exact mapGet_mapDelete_of_none _ h
    · rwa [if_neg hc]

theorem foldl_sweep_deletes_userRooms (now : Nat) (l : List (String × User))
    (sid : String) (u : User) (hoff : u.isOnline = false)
    (hstale : inactiveThreshold < now - u.lastSeen) :
    ∀ s : ServerState, (sid, u) ∈ l →
      mapGet ((l.foldl (sweepStep now) s).userRooms) u.id = none := by
  induction l with
  | nil =>
    intro s hmem
    simp at hmem
  | cons p l' ih =>
    intro s hmem
    rw [List.foldl_cons]
    rcases List.mem_cons.mp hmem with hp | hp
    · subst hp
      apply foldl_sweep_userRooms_none
      unfold sweepStep
      rw [if_pos (by simp [hoff, hstale])]
      exact mapGet_mapDelete_self _ _
    · exact ih (sweepStep now s p) hp

theorem foldl_sweep_keeps_online (now : Nat) (l : List (String × User))
    (s₂ : String) (u₂ : User) :
    ∀ s : ServerState, (∀ p ∈ l, p.1 = s₂ → p.2.isOnline = true) →
      (s₂, u₂) ∈ s.users → (s₂, u₂) ∈ (l.foldl (sweepStep now) s).users := by
  induction l with
  | nil =>
    intro s _ hmem
    exact hmem
  | cons p l' ih =>
    intro s hl hmem
    rw [List.foldl_cons]
    have hmem' : (s₂, u₂) ∈ (sweepStep now s p).users := by
      unfold sweepStep
      by_cases hc : (!p.2.isOnline && decide (inactiveThreshold < now - p.2.lastSeen)) = true
      · rw [if_pos hc]
        have hps : p.1 ≠ s₂ := by
          intro hps
          have hon := hl p (List.mem_cons_self p l') hps
          rw [hon] at hc
          simp at hc
        exact mem_mapDelete_of_ne hmem (Ne.symm hps)
      · rwa [if_neg hc]
    exact ih (sweepStep now s p) (fun q hq => hl q (List.mem_cons_of_mem p hq)) hmem'

/-! ### Emission equations (infrastructure for C2, C6, C8) -/

theorem handleSignal_emits_found {st : ServerState} {sock : String} {su : User}
    {tp : String × User} (d : SignalData) (now : Nat)
    (hs : mapGet st.users sock = some su)
    (ht : st.users.find? (fun p => p.2.id == d.toId) = some tp) :
    handleSignal st sock d now =
      (st, [Emit.signal tp.2.socketId d su.id su.name now]) := by
  unfold handleSignal
  simp only [hs, ht]

theorem handleSignal_emits_notFound {st : ServerState} {sock : String} {su : User}
    (d : SignalData) (now : Nat) (hs : mapGet st.users sock = some su)
    (ht : st.users.find? (fun p => p.2.id == d.toId) = none) :
    handleSignal st sock d now =
      (st, [Emit.signalError sock "User not found or offline" d.toId d]) := by
  unfold handleSignal
  simp only [hs, ht]

theorem handleChat_emits_found {st : ServerState} {sock : String} {su : User}
    {tp : String × User} (d : ChatData) (freshId : String) (now : Nat)
    (hs : mapGet st.users sock = some su)
    (ht : st.users.find? (fun p => p.2.id == d.recipientId) = some tp) :
    handleChat st sock d freshId now =
      (st, [Emit.chatMessage tp.2.socketId
              ⟨freshId, su.id, su.name, d.recipientId, d.content, now,
               jsOr d.msgType "text", "sent"⟩,
            Emit.messageDelivered sock freshId tp.2.id now]) := by
  unfold handleChat
  simp only [hs, ht]

theorem handleChat_emits_notFound {st : ServerState} {sock : String} {su : User}
    (d : ChatData) (freshId : String) (now : Nat)
    (hs : mapGet st.users sock = some su)
    (ht : st.users.find? (fun p => p.2.id == d.recipientId) = none) :
    handleChat st sock d freshId now =
      (st, [Emit.messageOffline sock freshId d.recipientId now]) := by
  unfold handleChat
  simp only [hs, ht]

theorem handleJoinRoom_emits (st : ServerState) (c r : String) :
    (handleJoinRoom st c r).2.2 =
      ((getS (ensureAdd st.ioRooms r c) r).filter (fun s => s != c)).map
        (fun x => Emit.userJoinedRoom x ((mapGet st.users c).map User.id)
          ((mapGet st.users c).map User.name) r) := rfl

/-! ### The claims -/

/-- Claim C1, counterexample: connections c1 and c2 both register the logical
id "u"; afterwards the registry holds two live (online) entries for "u" — the
later registration did not supersede the earlier connection's entry. -/
theorem c1_counterexample :
    ((applyRegs [⟨"c1", some "u", some "n1", "f1", 1⟩,
                 ⟨"c2", some "u", some "n2", "f2", 2⟩]).users.filter
       (fun p => p.2.isOnline && p.2.id == "u")).length = 2 := by decide

/-- Claim C1, amended: after any sequence of register operations the Presence
Registry holds at most one entry per connection id (the map keys stay
pairwise distinct); entries with the same logical id under different
connections coexist as multiple live entries. -/
theorem c1_registryKeyedByConnection (es : List RegEvent) :
    (((applyRegs es).users).map Prod.fst).Nodup :=
  nodup_keys_foldRegs es initState (by simp [initState])

/-- Claim C2, counterexample: the registry holds an offline entry for "u2"
(u2 disconnected, grace deletion pending), yet a signal addressed to "u2" is
delivered to that entry's connection "c2" and the sender receives no
signal-error — the handler never checks the online flag. -/
theorem c2_counterexample :
    mapGet exState2.users "c2" = some ⟨"u2", "n2", "c2", 3, false⟩ ∧
    handleSignal exState2 "c1" ⟨"u2", "offer", "sdp"⟩ 4 =
      (exState2, [Emit.signal "c2" ⟨"u2", "offer", "sdp"⟩ "u1" "n1" 4]) :=
  ⟨rfl, rfl⟩

/-- Claim C2, amended: for a signal from a registered sender, if any registry
entry (online or not) matches the target id, the annotated payload is sent
exactly once to the first matching entry's connection and nothing else is
emitted; only when no entry matches does the sender receive exactly one
signal-error with the original payload, and the state is unchanged either
way. -/
theorem c2_signalRoutingByEntry (st : ServerState) (sock : String)
    (d : SignalData) (now : Nat) (su : User)
    (hs : mapGet st.users sock = some su) :
    (∀ tp, st.users.find? (fun p => p.2.id == d.toId) = some tp →
      handleSignal st sock d now =
        (st, [Emit.signal tp.2.socketId d su.id su.name now])) ∧
    (st.users.find? (fun p => p.2.id == d.toId) = none →
      handleSignal st sock d now =
        (st, [Emit.signalError sock "User not found or offline" d.toId d])) :=
  ⟨fun _ ht => handleSignal_emits_found d now hs ht,
   fun ht => handleSignal_emits_notFound d now hs ht⟩

theorem c2_signalRoutingByEntry_witness :
    mapGet exStateOnline.users "c1" = some ⟨"u1", "n1", "c1", 1, true⟩ ∧
    handleSignal exStateOnline "c1" ⟨"u2", "offer", "sdp"⟩ 5 =
      (exStateOnline, [Emit.signal "c2" ⟨"u2", "offer", "sdp"⟩ "u1" "n1" 5]) :=
  ⟨rfl, (c2_signalRoutingByEntry exStateOnline "c1" ⟨"u2", "offer", "sdp"⟩ 5
      ⟨"u1", "n1", "c1", 1, true⟩ rfl).1 ("c2", ⟨"u2", "n2", "c2", 2, true⟩) rfl⟩

/-- Claim C3: a disconnect at T followed by a registration of the same
logical id from a fresh connection within the grace delay: when the
scheduled deletion (keyed by the old socket id) later fires, the freshly
online entry survives, and the snapshot broadcast after the deletion lists
the user as online. -/
theorem c3_graceWindowReconnect (st₀ : ServerState) {st₁ st₂ st₃ : ServerState}
    (oldSock newSock uid : String) (nm : Option String) (fresh : String)
    (T dlt : Nat) (u₀ : User)
    (hold : mapGet st₀.users oldSock = some u₀) (hid : u₀.id = uid)
    (hne : newSock ≠ oldSock) (huid : uid ≠ "") (hdlt : dlt < graceDelay)
    (h₁ : st₁ = (handleDisconnect st₀ oldSock T).1)
    (h₂ : st₂ = (handleRegister st₁ newSock (some uid) nm fresh (T + dlt)).1)
    (h₃ : st₃ = (runPendingDelete st₂ oldSock).1) :
    mapGet st₃.users newSock =
      some ⟨uid, jsOr nm ("User_" ++ newSock.take 6), newSock, T + dlt, true⟩ ∧
    ∃ e ∈ userListSnapshot st₃, e.id = uid ∧ e.isOnline = true := by
  subst h₁ h₂ h₃
  have hju : jsOr (some uid) fresh = uid := by
    show (if uid = "" then fresh else uid) = uid
    rw [if_neg huid]
  have h2u : (handleRegister (handleDisconnect st₀ oldSock T).1 newSock
      (some uid) nm fresh (T + dlt)).1.users =
      mapSet (handleDisconnect st₀ oldSock T).1.users newSock
        ⟨uid, jsOr nm ("User_" ++ newSock.take 6), newSock, T + dlt, true⟩ := by
    rw [handleRegister_state, hju]
  have hkey : mapGet ((runPendingDelete (handleRegister
      (handleDisconnect st₀ oldSock T).1 newSock (some uid) nm fresh
      (T + dlt)).1 oldSock).1).users newSock =
      some ⟨uid, jsOr nm ("User_" ++ newSock.take 6), newSock, T + dlt, true⟩ := by
    show mapGet (mapDelete (handleRegister (handleDisconnect st₀ oldSock T).1
      newSock (some uid) nm fresh (T + dlt)).1.users oldSock) newSock = _
    rw [mapGet_mapDelete_ne _ hne, h2u, mapGet_mapSet_self]
  refine ⟨hkey, ?_⟩
  exact ⟨_, List.mem_map_of_mem _ (mem_of_mapGet hkey), rfl, rfl⟩

theorem c3_graceWindowReconnect_witness :
    mapGet exStateOnline.users "c2" = some ⟨"u2", "n2", "c2", 2, true⟩ ∧
    ("c3" : String) ≠ "c2" ∧ ("u2" : String) ≠ "" ∧ (2 : Nat) < graceDelay ∧
    (mapGet ((runPendingDelete (handleRegister
        (handleDisconnect exStateOnline "c2" 10).1 "c3" (some "u2") (some "n3")
        "f3" (10 + 2)).1 "c2").1).users "c3" =
      some ⟨"u2", "n3", "c3", 12, true⟩ ∧
     ∃ e ∈ userListSnapshot ((runPendingDelete (handleRegister
        (handleDisconnect exStateOnline "c2" 10).1 "c3" (some "u2") (some "n3")
        "f3" (10 + 2)).1 "c2").1), e.id = "u2" ∧ e.isOnline = true) :=
  ⟨rfl, by decide, by decide, by decide,
   c3_graceWindowReconnect exStateOnline "c2" "c3" "u2" (some "n3") "f3" 10 2
     ⟨"u2", "n2", "c2", 2, true⟩ rfl rfl (by decide) (by decide) (by decide)
     rfl rfl rfl⟩

/-- Claim C4, counterexample: an unregistered connection c1 joins room R and
then registers as u1; afterwards u1's connection is a member of R's set but R
is not in u1's reverse-index room set, so the symmetry fails after a plain
register/join sequence. -/
theorem c4_counterexample :
    mapGet c4State.users "c1" = some ⟨"u1", "n1", "c1", 1, true⟩ ∧
    "c1" ∈ roomMembers c4State "R" ∧ "R" ∉ userRoomsOf c4State "u1" := by
  decide

/-- Claim C4, amended: for sequences of register/join/leave/disconnect in
which every join and leave comes from a registered connection and no two
distinct connections use the same logical id (goodOps), room membership and
the reverse index stay symmetric after every operation. -/
theorem c4_roomSymmetryGuarded (ops : List Op)
    (hg : goodOps initState ops = true) : roomSym (applyOps initState ops) :=
  (RoomInv_applyOps ops initState RoomInv_init hg).sym

theorem c4_roomSymmetryGuarded_witness :
    goodOps initState c4GoodOps = true ∧ roomSym (applyOps initState c4GoodOps) :=
  ⟨by decide, c4_roomSymmetryGuarded c4GoodOps (by decide)⟩

/-- Claim C5: starting from the empty state, after any sequence of
operations no room with an empty member set is present in the Room Index. -/
theorem c5_noEmptyRoomPersists (ops : List Op) :
    (applyOps initState ops).rooms.all (fun p => !p.2.isEmpty) = true := by
  rw [List.all_eq_true]
  intro p hp
  have h := roomsNonempty_applyOps ops initState (by simp [initState]) p hp
  cases hl : p.2 with
  | nil => exact absurd hl h
  | cons a tl => simp [hl]

/-- Claim C6, counterexample: the registry holds an offline entry for "u2",
yet a chat message addressed to "u2" is delivered to that entry's connection
and the sender receives message-delivered — not the message-offline event the
claim requires for an offline recipient. -/
theorem c6_counterexample :
    mapGet exState2.users "c2" = some ⟨"u2", "n2", "c2", 3, false⟩ ∧
    handleChat exState2 "c1" ⟨"u2", "hi", none⟩ "m1" 4 =
      (exState2, [Emit.chatMessage "c2" ⟨"m1", "u1", "n1", "u2", "hi", 4, "text", "sent"⟩,
                  Emit.messageDelivered "c1" "m1" "u2" 4]) :=
  ⟨rfl, rfl⟩

/-- Claim C6, amended: for a chat message from a registered sender, if any
registry entry (online or not) matches the recipient id, the envelope goes
exactly once to the first matching entry's connection and the sender gets
exactly one message-delivered carrying the same fresh message id; only when
no entry matches does the sender get message-offline with
messageId/recipientId/timestamp; in both cases the state is unchanged, so
nothing is buffered. -/
theorem c6_chatRoutingByEntry (st : ServerState) (sock : String) (d : ChatData)
    (freshId : String) (now : Nat) (su : User)
    (hs : mapGet st.users sock = some su) :
    (∀ tp, st.users.find? (fun p => p.2.id == d.recipientId) = some tp →
      handleChat st sock d freshId now =
        (st, [Emit.chatMessage tp.2.socketId
                ⟨freshId, su.id, su.name, d.recipientId, d.content, now,
                 jsOr d.msgType "text", "sent"⟩,
              Emit.messageDelivered sock freshId tp.2.id now])) ∧
    (st.users.find? (fun p => p.2.id == d.recipientId) = none →
      handleChat st sock d freshId now =
        (st, [Emit.messageOffline sock freshId d.recipientId now])) :=
  ⟨fun _ ht => handleChat_emits_found d freshId now hs ht,
   fun ht => handleChat_emits_notFound d freshId now hs ht⟩

theorem c6_chatRoutingByEntry_witness :
    mapGet exStateOnline.users "c1" = some ⟨"u1", "n1", "c1", 1, true⟩ ∧
    handleChat exStateOnline "c1" ⟨"u2", "hi", none⟩ "m1" 5 =
      (exStateOnline,
       [Emit.chatMessage "c2" ⟨"m1", "u1", "n1", "u2", "hi", 5, "text", "sent"⟩,
        Emit.messageDelivered "c1" "m1" "u2" 5]) :=
  ⟨rfl, (c6_chatRoutingByEntry exStateOnline "c1" ⟨"u2", "hi", none⟩ "m1" 5
      ⟨"u1", "n1", "c1", 1, true⟩ rfl).1 ("c2", ⟨"u2", "n2", "c2", 2, true⟩) rfl⟩

/-- Claim C7 (code bug): GET /users maps over every tracked registry entry
and hardcodes isOnline: true, so the offline entry for u2 appears in the
"online users" listing, labeled online. -/
theorem c7_usersEndpointListsOffline :
    mapGet exState2.users "c2" = some ⟨"u2", "n2", "c2", 3, false⟩ ∧
    getUsersEndpoint exState2 = [⟨"u1", "n1", true, 1⟩, ⟨"u2", "n2", true, 3⟩] :=
  ⟨rfl, rfl⟩

/-- Claim C8, counterexample: uA, uB, uC are all members of room R; a
redundant join-room by uA's connection emits user-joined-room to both cB and
cC — the idempotent join is not silent toward other members. -/
theorem c8_counterexample :
    "cA" ∈ getS exState8.ioRooms "R" ∧ "cB" ∈ getS exState8.ioRooms "R" ∧
    "cC" ∈ getS exState8.ioRooms "R" ∧
    (handleJoinRoom exState8 "cA" "R").2.2 =
      [Emit.userJoinedRoom "cB" (some "uA") (some "nA") "R",
       Emit.userJoinedRoom "cC" (some "uA") (some "nA") "R"] :=
  ⟨by decide, by decide, by decide, rfl⟩

/-- Claim C8, amended: when a registered connection that is already a member
of room R joins R again, every other member of the room receives a
user-joined-room notification — the redundant join is not silent. -/
theorem c8_redundantJoinNotifies (st : ServerState) (a b R : String) (w : User)
    (hw : mapGet st.users a = some w) (ha : a ∈ getS st.ioRooms R)
    (hb : b ∈ getS st.ioRooms R) (hba : b ≠ a) :
    Emit.userJoinedRoom b (some w.id) (some w.name) R ∈
      (handleJoinRoom st a R).2.2 := by
  rw [handleJoinRoom_emits, getS_ensureAdd_self, setAdd_eq_self ha, hw]
  have hbt : b ∈ (getS st.ioRooms R).filter (fun s => s != a) :=
    List.mem_filter.mpr ⟨hb, by simp [hba]⟩
  have hmem := List.mem_map_of_mem (fun x => Emit.userJoinedRoom x
    ((some w).map User.id) ((some w).map User.name) R) hbt
  simpa using hmem

theorem c8_redundantJoinNotifies_witness :
    mapGet exState8.users "cA" = some ⟨"uA", "nA", "cA", 1, true⟩ ∧
    "cA" ∈ getS exState8.ioRooms "R" ∧ "cB" ∈ getS exState8.ioRooms "R" ∧
    ("cB" : String) ≠ "cA" ∧
    Emit.userJoinedRoom "cB" (some "uA") (some "nA") "R" ∈
      (handleJoinRoom exState8 "cA" "R").2.2 :=
  ⟨rfl, by decide, by decide, by decide,
   c8_redundantJoinNotifies exState8 "cA" "cB" "R" ⟨"uA", "nA", "cA", 1, true⟩
     rfl (by decide) (by decide) (by decide)⟩

/-- Claim C9: join-room is idempotent on the whole server state and the
second call still acknowledges success; the same holds for leave-room,
including leaving a room that was never joined (the state is arbitrary). -/
theorem c9_joinLeaveIdempotent (st : ServerState) (c r : String) :
    (handleJoinRoom (handleJoinRoom st c r).1 c r).1 = (handleJoinRoom st c r).1 ∧
    (handleJoinRoom (handleJoinRoom st c r).1 c r).2.1 = Ack.success (some r) ∧
    (handleLeaveRoom (handleLeaveRoom st c r).1 c r).1 = (handleLeaveRoom st c r).1 ∧
    (handleLeaveRoom (handleLeaveRoom st c r).1 c r).2.1 = Ack.success none :=
  ⟨handleJoinRoom_state_idem st c r, rfl, handleLeaveRoom_state_idem st c r, rfl⟩

/-- Claim C10: when the sweep runs over a registry containing an offline
entry (s, u) whose lastSeen is older than the threshold, it deletes the whole
reverse-index entry for u.id — even while any online entry (s₂, u₂), in
particular one with the same logical id, survives the sweep. -/
theorem c10_sweepErasesReverseIndex (st : ServerState) (now : Nat)
    (s : String) (u : User) (s₂ : String) (u₂ : User)
    (hnd : (st.users.map Prod.fst).Nodup)
    (hmem : (s, u) ∈ st.users) (hoff : u.isOnline = false)
    (hstale : inactiveThreshold < now - u.lastSeen)
    (hmem₂ : (s₂, u₂) ∈ st.users) (hon : u₂.isOnline = true) :
    mapGet (cleanupSweep st now).userRooms u.id = none ∧
    (s₂, u₂) ∈ (cleanupSweep st now).users := by
  constructor
  · exact foldl_sweep_deletes_userRooms now st.users s u hoff hstale st hmem
  · apply foldl_sweep_keeps_online now st.users s₂ u₂ st _ hmem₂
    intro p hp hps
    have hp' : (s₂, p.2) ∈ st.users := by
      rw [← hps]
      exact hp
    have hpu : p.2 = u₂ := nodup_keys_eq hnd hp' hmem₂
    rw [hpu]
    exact hon

theorem c10_sweepErasesReverseIndex_witness :
    (exState10.users.map Prod.fst).Nodup ∧
    ("c2", (⟨"u2", "n2", "c2", 2, false⟩ : User)) ∈ exState10.users ∧
    (⟨"u2", "n2", "c2", 2, false⟩ : User).isOnline = false ∧
    inactiveThreshold < 400000 - (⟨"u2", "n2", "c2", 2, false⟩ : User).lastSeen ∧
    ("c3", (⟨"u2", "n3", "c3", 3, true⟩ : User)) ∈ exState10.users ∧
    (⟨"u2", "n3", "c3", 3, true⟩ : User).isOnline = true ∧
    mapGet exState10.userRooms "u2" = some ["user_u2"] ∧
    (mapGet (cleanupSweep exState10 400000).userRooms "u2" = none ∧
     ("c3", (⟨"u2", "n3", "c3", 3, true⟩ : User)) ∈
       (cleanupSweep exState10 400000).users) :=
  ⟨by decide, by decide, rfl, by decide, by decide, rfl, by decide,
   c10_sweepErasesReverseIndex exState10 400000 "c2" ⟨"u2", "n2", "c2", 2, false⟩
     "c3" ⟨"u2", "n3", "c3", 3, true⟩ (by decide) (by decide) rfl (by decide)
     (by decide) rfl⟩
end Chatmate
